import Mathlib

/-!
Verification of the interactive masking surface of the AI inpainting editor.

The embedding follows `src/components/ImageEditor.tsx` and
`src/services/geminiService.ts`:

* a canvas pixel buffer (`ImageData`) is a list of `RGBA` pixels with byte
  channels;
* the component's mutable refs/state that the claims concern are collected in
  `EditorState` (`history`, `historyIndex` starting at `-1`, the drawing
  canvas's pixel content, the `isDrawing` flag, the loaded image, the prompt
  text, the surfaced error and the loading flag);
* `saveToHistory`, `handleUndo`, `clearMask`, `startDrawing`, `stopDrawing`
  and `handleGenerate` are translated operation by operation;
* browser rasterisation of an in-progress stroke is abstracted as the pixel
  buffer the stroke leaves on the canvas (`doStroke`), and browser image
  resampling at `drawImage` scale time is an abstract `scale` function; the
  per-pixel source-over compositing that `drawImage` performs is modelled
  exactly (`compositeOver`);
* the floating-point geometry of `resizeCanvases` is modelled over `ℚ`.
-/

/-- One RGBA pixel of a canvas `ImageData` buffer; each channel is a byte
value in `0–255` (`Uint8ClampedArray` entries). -/
structure RGBA where
  r : Nat
  g : Nat
  b : Nat
  a : Nat
  deriving DecidableEq, Repr

/-- A mask snapshot: the full pixel buffer of the drawing canvas, as captured
by `getImageData` and stored in the undo history. -/
abbrev Snap := List RGBA

/-- The state of the `ImageEditor` component relevant to the claims: the undo
history (`history` ref), its cursor (`historyIndex` ref, initially `-1`), the
drawing canvas's pixel content, the `isDrawing` flag, the loaded original
image (`image` ref, `none` until loaded), the prompt text, the surfaced error
message and the loading flag. -/
structure EditorState where
  history : List Snap
  historyIndex : Int
  canvas : Snap
  isDrawing : Bool
  image : Option Snap
  prompt : String
  error : Option String
  isLoading : Bool
  deriving DecidableEq, Repr

/-- JavaScript `Array.prototype.splice(start)` with a single argument, as used
in `saveToHistory`: it deletes every element from the (clamped) `start` index
through the end and leaves the prefix; a negative `start` counts back from the
end of the array. -/
def spliceFrom (l : List Snap) (start : Int) : List Snap :=
  if start < 0 then l.take (l.length + start).toNat else l.take start.toNat

/-- `saveToHistory`: capture the drawing canvas's pixel buffer, drop the
history entries after the cursor (`history.current.splice(historyIndex + 1)`),
push the captured buffer, and set the cursor to the new last index. -/
def saveToHistory (s : EditorState) : EditorState :=
  let hist := spliceFrom s.history (s.historyIndex + 1) ++ [s.canvas]
  { s with history := hist, historyIndex := (hist.length : Int) - 1 }

/-- `handleUndo`: if the cursor is above `0`, decrement it and, when a
snapshot is stored at the new cursor, repaint the canvas with it
(`clearRect` + `putImageData`); otherwise do nothing. -/
def handleUndo (s : EditorState) : EditorState :=
  if 0 < s.historyIndex then
    match s.history[(s.historyIndex - 1).toNat]? with
    | some d => { s with historyIndex := s.historyIndex - 1, canvas := d }
    | none => { s with historyIndex := s.historyIndex - 1 }
  else s

/-- `clearMask`: set the cursor to `0` first; then, if a snapshot is stored
there, repaint the canvas with it (`clearRect` + `putImageData`) and call
`saveToHistory` to save the cleared state. -/
def clearMask (s : EditorState) : EditorState :=
  match s.history[0]? with
  | some d => saveToHistory { s with historyIndex := 0, canvas := d }
  | none => { s with historyIndex := (0 : Int) }

/-- `startDrawing`: set the `isDrawing` flag and begin a path at the pointer
position. `beginPath`/`moveTo` and setting `globalCompositeOperation` put no
ink on the canvas, so the pixel buffer is unchanged. -/
def startDrawing (s : EditorState) : EditorState :=
  { s with isDrawing := true }

/-- `stopDrawing`: if a stroke is active, close the path (which strokes no
pixels by itself), clear the `isDrawing` flag and push the canvas's pixel
buffer into the history via `saveToHistory`; otherwise do nothing. -/
def stopDrawing (s : EditorState) : EditorState :=
  if s.isDrawing then saveToHistory { s with isDrawing := false } else s

/-- One completed pointer interaction: `startDrawing`, then the `draw` events
of the gesture — whose rasterised effect on the canvas is abstracted as the
resulting pixel buffer `c` — then `stopDrawing`. -/
def doStroke (c : Snap) (s : EditorState) : EditorState :=
  stopDrawing { startDrawing s with canvas := c }

/-- A sequence of completed strokes, applied left to right. -/
def doStrokes (cs : List Snap) (s : EditorState) : EditorState :=
  cs.foldl (fun st c => doStroke c st) s

/-- `handleUndo` applied `n` times. -/
def undoN : Nat → EditorState → EditorState
  | 0, s => s
  | n + 1, s => undoN n (handleUndo s)

/-- The editor state right after the image's `onload` handler ran: the refs
start with an empty history and cursor `-1`, the freshly sized drawing canvas
is blank, and `saveToHistory` stores that initial blank snapshot. -/
def initState (img blank : Snap) : EditorState :=
  saveToHistory
    { history := [], historyIndex := -1, canvas := blank, isDrawing := false,
      image := some img, prompt := "", error := none, isLoading := false }

/-- The opaque black pixel produced by `fillStyle = 'black'; fillRect`. -/
def solidBlack : RGBA := ⟨0, 0, 0, 255⟩

/-- Source-over compositing of a source pixel onto a destination pixel, as
canvas `drawImage` performs it: the blend runs on premultiplied values and
`getImageData` reads the result back un-premultiplied; channels are bytes and
the arithmetic is scaled by `255`. -/
def compositeOver (src dst : RGBA) : RGBA :=
  let outA := src.a + dst.a * (255 - src.a) / 255
  let blend : Nat → Nat → Nat := fun cs cd =>
    if outA = 0 then 0
    else (cs * src.a + cd * dst.a * (255 - src.a) / 255) / outA
  { r := blend src.r dst.r, g := blend src.g dst.g, b := blend src.b dst.b,
    a := outA }

/-- The binarisation loop of `handleGenerate`: for every pixel of the mask
canvas's `ImageData`, if its alpha channel is positive set its red, green and
blue channels to `255`, otherwise leave the pixel as it is. -/
def binarizeWhite (img : Snap) : Snap :=
  img.map (fun p =>
    if 0 < p.a then { p with r := 255, g := 255, b := 255 } else p)

/-- The mask build of `handleGenerate`: allocate a surface of `n` pixels at
the original image's native resolution, fill it opaque black, `drawImage` the
scaled current history snapshot over it when one exists (source-over
compositing per pixel), then run the binarisation loop. -/
def buildMask (n : Nat) (scaledSnap : Option Snap) : Snap :=
  let blackFill : Snap := List.replicate n solidBlack
  let composited : Snap :=
    match scaledSnap with
    | some sc => List.zipWith compositeOver sc blackFill
    | none => blackFill
  binarizeWhite composited

/-- The emptiness test of `handleGenerate`: a `Uint32Array` word over an RGBA
pixel is zero exactly when all four byte channels are zero. -/
def pixelZero (p : RGBA) : Bool :=
  p.r == 0 && p.g == 0 && p.b == 0 && p.a == 0

/-- The prompt validation test `!prompt.trim()` of `handleGenerate`: the
trimmed prompt is the empty (falsy) string exactly when every character of
the prompt is whitespace. -/
def promptBlank (p : String) : Bool := p.data.all Char.isWhitespace

/-- The inline error shown when the prompt is blank after trimming. -/
def emptyPromptMessage : String := "Please enter a description for the edit."

/-- The inline error shown when the drawing canvas holds no ink at all. -/
def emptyMaskMessage : String :=
  "Please draw a mask on the image to indicate the area to be edited."

/-- `handleGenerate`: fail with an inline validation error if the prompt is
blank after trimming, or if every pixel of the drawing canvas is the zero
word; otherwise clear the error, set the loading flag, build the
full-resolution binary mask from the current history snapshot (scaled to the
native pixel count `n` by the abstract resampler `scale`), and invoke the
generation service. The service call's outcome is passed in as `svc`; the
returned `Bool` records whether the service was invoked. A thrown error is
caught and stored in `error`; `isLoading` is reset in the `finally` block. -/
def handleGenerate (scale : Snap → Snap) (n : Nat) (s : EditorState)
    (svc : Except String String) : EditorState × Bool :=
  if promptBlank s.prompt then
    ({ s with error := some emptyPromptMessage }, false)
  else if s.canvas.all pixelZero then
    ({ s with error := some emptyMaskMessage }, false)
  else
    let s1 := { s with error := none, isLoading := true }
    match s1.image with
    | none =>
      ({ s1 with error := some "Original image not found", isLoading := false },
        false)
    | some _ =>
      let _maskBase64 :=
        buildMask n ((s1.history[s1.historyIndex.toNat]?).map scale)
      match svc with
      | .ok _res => ({ s1 with isLoading := false }, true)
      | .error msg =>
        ({ s1 with error := some msg, isLoading := false }, true)

/-- The fields of a Gemini response that `editImageWithMask` inspects: the
inline image data of the first candidate's first part, when present, and the
first candidate's safety ratings, modelled as their JSON-serialised text,
when present. -/
structure GenResponse where
  inlineImageData : Option String
  safetyRatings : Option String
  deriving DecidableEq, Repr

/-- The fixed first sentence of the no-image error in `editImageWithMask`. -/
def noImageMessage : String :=
  "No image was generated. The response may have been blocked due to safety policies."

/-- `editImageWithMask` from `src/services/geminiService.ts`, with thrown
errors modelled as `Except.error`. A missing API key throws before the `try`
block; inside it, `callResult` is the transport outcome of
`ai.models.generateContent` — a transport error is caught and wrapped with
`Failed to edit image:`. On a response whose first part carries inline data
the data-URL string is returned; otherwise the no-image error is built,
appending the safety feedback when available, thrown, caught by the same
`catch`, and wrapped. -/
def editImageWithMask (apiKey : Option String)
    (callResult : Except String GenResponse) : Except String String :=
  match apiKey with
  | none =>
    .error "API_KEY environment variable is not set. Please set it in your environment."
  | some _ =>
    match callResult with
    | .error e => .error ("Failed to edit image: " ++ e)
    | .ok resp =>
      match resp.inlineImageData with
      | some d => .ok ("data:image/png;base64," ++ d)
      | none =>
        let errorMessage :=
          match resp.safetyRatings with
          | some sf => noImageMessage ++ " Safety feedback: " ++ sf
          | none => noImageMessage
        .error ("Failed to edit image: " ++ errorMessage)

/-- A width/height pair of canvas render dimensions, over `ℚ`. -/
structure Rect where
  w : ℚ
  h : ℚ
  deriving DecidableEq, Repr

/-- The two display surfaces whose dimensions `resizeCanvases` sets: the
image canvas and the drawing canvas. -/
structure Surfaces where
  imageCanvas : Rect
  drawingCanvas : Rect
  deriving DecidableEq, Repr

/-- The render-rectangle computation of `resizeCanvases`: `none` when the
image has zero natural width (not yet loaded); otherwise compare the image's
aspect ratio with the container's and fill the limiting container dimension,
deriving the other from the image's aspect ratio. -/
def computeRenderRect (nw nh cw ch : ℚ) : Option Rect :=
  if nw = 0 then none
  else
    let imageAspectRatio := nw / nh
    let containerAspectRatio := cw / ch
    if containerAspectRatio < imageAspectRatio then
      some ⟨cw, cw / imageAspectRatio⟩
    else
      some ⟨ch * imageAspectRatio, ch⟩

/-- `resizeCanvases` acting on the two surfaces: a no-op when the image has
zero natural width, otherwise both the image canvas and the drawing canvas
are set to the computed render rectangle. -/
def resizeCanvases (nw nh cw ch : ℚ) (s : Surfaces) : Surfaces :=
  match computeRenderRect nw nh cw ch with
  | none => s
  | some r => ⟨r, r⟩

/-- The cursor invariant of the Raster History Store: the cursor is never
negative and never exceeds sequence length minus one. -/
def invariantHolds (s : EditorState) : Prop :=
  0 ≤ s.historyIndex ∧ s.historyIndex ≤ (s.history.length : Int) - 1

/-- A one-pixel blank (fully transparent) snapshot, used as a concrete
initial canvas. -/
def blankSnap : Snap := [⟨0, 0, 0, 0⟩]

/-- A one-pixel snapshot holding translucent magenta ink, the brush colour
`rgba(255, 0, 255, 0.7)` as read back from a canvas. -/
def inkSnap : Snap := [⟨255, 0, 255, 178⟩]

/-- A concrete state with one painted stroke: the initialised history holds
the blank snapshot, then one completed stroke painted `inkSnap`. -/
def preClearState : EditorState := doStroke inkSnap (initState blankSnap blankSnap)

lemma saveToHistory_eq (s : EditorState) (h : -1 ≤ s.historyIndex) :
    saveToHistory s =
      { s with
          history := s.history.take (s.historyIndex + 1).toNat ++ [s.canvas],
          historyIndex :=
            ((s.history.take (s.historyIndex + 1).toNat ++ [s.canvas]).length : Int)
              - 1 } := by
  have h1 : ¬ s.historyIndex + 1 < 0 := by omega
  simp [saveToHistory, spliceFrom, h1]

/-- C5: `saveToHistory` (push) first discards every snapshot strictly beyond
the cursor, then appends the captured canvas snapshot, then sets the cursor to
the new last index — so no redo of abandoned branches is possible. -/
theorem push_truncates_then_appends (s : EditorState)
    (h : -1 ≤ s.historyIndex) :
    (saveToHistory s).history
        = s.history.take (s.historyIndex + 1).toNat ++ [s.canvas] ∧
    (saveToHistory s).historyIndex
        = ((saveToHistory s).history.length : Int) - 1 ∧
    (saveToHistory s).history.getLast? = some s.canvas := by
  rw [saveToHistory_eq s h]
  refine ⟨rfl, rfl, ?_⟩
  simp

/-- Concrete instance of C5's theorem: pushing onto the one-stroke state
keeps the cursor at the new last index. -/
theorem push_truncates_then_appends_witness :
    (saveToHistory preClearState).history
        = preClearState.history.take
            (preClearState.historyIndex + 1).toNat ++ [preClearState.canvas] ∧
    (saveToHistory preClearState).historyIndex
        = ((saveToHistory preClearState).history.length : Int) - 1 ∧
    (saveToHistory preClearState).history.getLast?
        = some preClearState.canvas :=
  push_truncates_then_appends preClearState (by decide)

/-- C6: once at least one snapshot exists, `saveToHistory` (push),
`handleUndo` (undo) and `clearMask` (clear) each preserve the invariant that
the cursor is a valid index: never negative, never more than
sequence length minus one. -/
theorem cursor_invariant_preserved (s : EditorState)
    (hne : s.history ≠ []) (hinv : invariantHolds s) :
    invariantHolds (saveToHistory s) ∧ invariantHolds (handleUndo s) ∧
      invariantHolds (clearMask s) := by
  obtain ⟨hge, hle⟩ := hinv
  refine ⟨?_, ?_, ?_⟩
  · rw [saveToHistory_eq s (by omega)]
    simp only [invariantHolds, List.length_append, List.length_take,
      List.length_cons, List.length_nil]
    omega
  · unfold handleUndo
    split
    · split
      · simp only [invariantHolds]
        omega
      · simp only [invariantHolds]
        omega
    · exact ⟨hge, hle⟩
  · unfold clearMask
    cases hh : s.history with
    | nil => exact absurd hh hne
    | cons h0 t =>
      simp only [hh, List.getElem?_cons_zero]
      rw [saveToHistory_eq _ (by simp)]
      simp only [invariantHolds, hh, List.length_append, List.length_take,
        List.length_cons]
      omega

/-- Concrete instance of C6's theorem at the one-stroke state. -/
theorem cursor_invariant_preserved_witness :
    invariantHolds (saveToHistory preClearState) ∧
    invariantHolds (handleUndo preClearState) ∧
    invariantHolds (clearMask preClearState) :=
  cursor_invariant_preserved preClearState (by decide)
    (by constructor <;> decide)

/-- C2 (amended): for every state whose history is non-empty, `clearMask`
truncates the history to its first entry (the initial blank snapshot) and
pushes a copy of it, so `handleUndo` right after `clearMask` restores the
initial snapshot at index 0 — not the snapshot current before the clear. -/
theorem clear_then_undo_restores_initial (s : EditorState) (h0 : Snap)
    (rest : List Snap) (hh : s.history = h0 :: rest) :
    (clearMask s).history = [h0, h0] ∧
    (handleUndo (clearMask s)).canvas = h0 ∧
    (handleUndo (clearMask s)).historyIndex = 0 := by
  have hclear : clearMask s =
      { s with history := [h0, h0], historyIndex := 1, canvas := h0 } := by
    unfold clearMask
    rw [hh]
    simp only [List.getElem?_cons_zero]
    rw [saveToHistory_eq _ (by simp)]
    simp
  refine ⟨by rw [hclear], ?_, ?_⟩ <;>
    simp [hclear, handleUndo]

/-- Concrete instance of C2's amended theorem at the one-stroke state. -/
theorem clear_then_undo_restores_initial_witness :
    (clearMask preClearState).history = [blankSnap, blankSnap] ∧
    (handleUndo (clearMask preClearState)).canvas = blankSnap ∧
    (handleUndo (clearMask preClearState)).historyIndex = 0 :=
  clear_then_undo_restores_initial preClearState blankSnap [inkSnap] (by decide)

/-- C2 (counterexample): in the concrete one-stroke state the snapshot
current immediately before the clear is the painted `inkSnap`, yet undo after
clear repaints the blank initial snapshot, not `inkSnap`. -/
theorem clear_then_undo_counterexample :
    preClearState.canvas = inkSnap ∧
    preClearState.history = [blankSnap, inkSnap] ∧
    (handleUndo (clearMask preClearState)).canvas ≠ inkSnap ∧
    (handleUndo (clearMask preClearState)).canvas = blankSnap := by
  decide

/-- C10: a pointer-down immediately followed by pointer-up, with no move
events, still pushes a snapshot equal to the current canvas contents and
advances the cursor by one, so the undo depth counts empty strokes. -/
theorem empty_stroke_still_pushes (s : EditorState)
    (hge : 0 ≤ s.historyIndex)
    (hlt : s.historyIndex < (s.history.length : Int)) :
    (stopDrawing (startDrawing s)).history
        = s.history.take (s.historyIndex + 1).toNat ++ [s.canvas] ∧
    (stopDrawing (startDrawing s)).historyIndex = s.historyIndex + 1 := by
  unfold startDrawing stopDrawing
  rw [saveToHistory_eq _ (by simpa using by omega)]
  simp only [if_true, List.length_append, List.length_take, List.length_cons,
    List.length_nil]
  refine ⟨trivial, ?_⟩
  omega

/-- Concrete instance of C10's theorem at the one-stroke state. -/
theorem empty_stroke_still_pushes_witness :
    (stopDrawing (startDrawing preClearState)).history
        = preClearState.history.take
            (preClearState.historyIndex + 1).toNat ++ [preClearState.canvas] ∧
    (stopDrawing (startDrawing preClearState)).historyIndex
        = preClearState.historyIndex + 1 :=
  empty_stroke_still_pushes preClearState (by decide) (by decide)

lemma initState_spec (img blank : Snap) :
    (initState img blank).history = [blank] ∧
    (initState img blank).historyIndex = 0 ∧
    (initState img blank).canvas = blank := by
  simp [initState, saveToHistory, spliceFrom]

lemma doStroke_spec (c : Snap) (s : EditorState)
    (hi : s.historyIndex = (s.history.length : Int) - 1) :
    (doStroke c s).history = s.history ++ [c] ∧
    (doStroke c s).historyIndex = (s.history.length : Int) := by
  unfold doStroke startDrawing stopDrawing
  rw [saveToHistory_eq _ (by show -1 ≤ s.historyIndex; omega)]
  simp only [if_true, hi]
  constructor
  · have : ((s.history.length : Int) - 1 + 1).toNat = s.history.length := by
      omega
    rw [this, List.take_length]
  · simp only [List.length_append, List.length_take, List.length_cons,
      List.length_nil]
    omega

lemma doStrokes_spec (cs : List Snap) : ∀ s : EditorState,
    s.historyIndex = (s.history.length : Int) - 1 →
    (doStrokes cs s).history = s.history ++ cs ∧
    (doStrokes cs s).historyIndex
      = ((s.history.length : Int) + cs.length) - 1 := by
  induction cs with
  | nil =>
    intro s hi
    simp [doStrokes, hi]
  | cons c cs ih =>
    intro s hi
    have hstep := doStroke_spec c s hi
    have hrec := ih (doStroke c s)
      (by rw [hstep.2, hstep.1]; simp)
    have hfold : doStrokes (c :: cs) s = doStrokes cs (doStroke c s) := by
      simp [doStrokes]
    rw [hfold, hrec.1, hrec.2, hstep.1]
    constructor
    · simp
    · simp only [List.length_append, List.length_cons, List.length_nil]
      push_cast
      omega

lemma handleUndo_nonneg (s : EditorState) (h : 0 ≤ s.historyIndex) :
    0 ≤ (handleUndo s).historyIndex := by
  unfold handleUndo
  split
  · split <;> simp only [] <;> omega
  · exact h

lemma undoN_nonneg (j : Nat) : ∀ s : EditorState, 0 ≤ s.historyIndex →
    0 ≤ (undoN j s).historyIndex := by
  induction j with
  | zero => intro s h; exact h
  | succ j ih => intro s h; exact ih _ (handleUndo_nonneg s h)

lemma undoN_run (blank : Snap) (rest : List Snap) :
    ∀ (k : Nat) (s : EditorState), s.history = blank :: rest →
      s.historyIndex = (k : Int) → k ≤ rest.length →
      (undoN k s).historyIndex = 0 ∧
      (undoN k s).canvas = (if k = 0 then s.canvas else blank) := by
  intro k
  induction k with
  | zero =>
    intro s _ hi _
    exact ⟨hi, by simp [undoN]⟩
  | succ k ih =>
    intro s hh hi hk
    have hpos : 0 < s.historyIndex := by omega
    have htn : (s.historyIndex - 1).toNat = k := by omega
    have hlt : k < (blank :: rest).length := by
      simp only [List.length_cons]; omega
    have hget : s.history[(s.historyIndex - 1).toNat]?
        = some ((blank :: rest).get ⟨k, hlt⟩) := by
      rw [hh, htn]
      rw [List.getElem?_eq_getElem hlt]
      simp [List.get_eq_getElem]
    have hundo : handleUndo s =
        { s with historyIndex := s.historyIndex - 1,
                 canvas := (blank :: rest).get ⟨k, hlt⟩ } := by
      unfold handleUndo
      rw [if_pos hpos, hget]
    have hrec := ih (handleUndo s)
      (by rw [hundo]; exact hh)
      (by rw [hundo]; show s.historyIndex - 1 = (k : Int); omega)
      (by omega)
    have hN : undoN (k + 1) s = undoN k (handleUndo s) := rfl
    rw [hN, hrec.1, hrec.2]
    refine ⟨rfl, ?_⟩
    by_cases hk0 : k = 0
    · subst hk0
      simp [hundo]
    · simp [hk0]

/-- C4: starting from the initialised history (one blank snapshot), any
sequence of N completed strokes followed by N undos returns the canvas to the
initial blank snapshot with the cursor at 0, and no number of undos ever
takes the cursor below 0. -/
theorem strokes_then_undos_return_to_blank (img blank : Snap)
    (cs : List Snap) :
    (undoN cs.length (doStrokes cs (initState img blank))).canvas = blank ∧
    (undoN cs.length (doStrokes cs (initState img blank))).historyIndex
        = 0 ∧
    ∀ j : Nat,
      0 ≤ (undoN j (doStrokes cs (initState img blank))).historyIndex := by
  obtain ⟨hih, hii, hic⟩ := initState_spec img blank
  have hstrokes := doStrokes_spec cs (initState img blank)
    (by rw [hii, hih]; simp)
  rw [hih] at hstrokes
  have hh : (doStrokes cs (initState img blank)).history = blank :: cs := by
    rw [hstrokes.1]; rfl
  have hi : (doStrokes cs (initState img blank)).historyIndex
      = (cs.length : Int) := by
    rw [hstrokes.2]; simp
  have hrun := undoN_run blank cs cs.length
    (doStrokes cs (initState img blank)) hh hi le_rfl
  refine ⟨?_, hrun.1, ?_⟩
  · rw [hrun.2]
    by_cases hcs : cs.length = 0
    · have : cs = [] := List.length_eq_zero.mp hcs
      subst this
      simp [doStrokes, hcs, hic]
    · simp [hcs]
  · intro j
    exact undoN_nonneg j _ (by rw [hi]; positivity)

lemma compositeOver_black_alpha (p : RGBA) (hp : p.a ≤ 255) :
    (compositeOver p solidBlack).a = 255 := by
  have hdiv : 255 * (255 - p.a) / 255 = 255 - p.a :=
    Nat.mul_div_cancel_left _ (by norm_num)
  simp only [compositeOver, solidBlack, hdiv]
  omega

lemma binarize_zip_black (sc : Snap) : ∀ n : Nat, sc.length ≤ n →
    (∀ p ∈ sc, p.a ≤ 255) →
    binarizeWhite (List.zipWith compositeOver sc (List.replicate n solidBlack))
      = List.replicate sc.length (RGBA.mk 255 255 255 255) := by
  induction sc with
  | nil =>
    intro n _ _
    simp [binarizeWhite]
  | cons x xs ih =>
    intro n hlen hle
    match n with
    | 0 => simp at hlen
    | m + 1 =>
      have hx : x.a ≤ 255 := hle x (by simp)
      have ha : (compositeOver x solidBlack).a = 255 :=
        compositeOver_black_alpha x hx
      have hhead :
          (if 0 < (compositeOver x solidBlack).a then
            { compositeOver x solidBlack with r := 255, g := 255, b := 255 }
          else compositeOver x solidBlack) = RGBA.mk 255 255 255 255 := by
        rw [if_pos (by omega)]
        cases hc : compositeOver x solidBlack with
        | mk r g b a =>
          simp only [hc] at ha
          simp [ha]
      have htail := ih m (by simpa using hlen) (fun p hp => hle p (by simp [hp]))
      simp only [List.replicate_succ, List.zipWith_cons_cons, binarizeWhite,
        List.map_cons, List.length_cons] at *
      rw [hhead, htail]

/-- C1: contrary to the claim, the mask the compositor emits at submit time
is entirely opaque white — also at pixels where the scaled snapshot's ink
alpha is zero. Compositing the snapshot over the opaque black fill forces
every pixel's alpha to 255, so the binarisation test `data[i + 3] > 0` always
fires, whitening every pixel regardless of the painted ink. -/
theorem maskCompositor_emits_all_white (sc : Snap)
    (hsc : ∀ p ∈ sc, p.a ≤ 255) :
    buildMask sc.length (some sc)
      = List.replicate sc.length (RGBA.mk 255 255 255 255) := by
  simpa [buildMask] using binarize_zip_black sc sc.length le_rfl hsc

/-- Concrete instance of C1's theorem: a one-pixel snapshot whose single
pixel is fully transparent ink still yields a pure-white mask pixel, where
the claim demands opaque black. -/
theorem maskCompositor_emits_all_white_witness :
    (∀ p ∈ [RGBA.mk 0 0 0 0], p.a ≤ 255) ∧
    buildMask 1 (some [RGBA.mk 0 0 0 0]) = [RGBA.mk 255 255 255 255] :=
  ⟨by decide, by
    simpa using maskCompositor_emits_all_white [RGBA.mk 0 0 0 0] (by decide)⟩

/-- C3: when the drawing canvas holds no non-transparent pixel, submitting
fails with an inline validation error and the generation service is never
invoked. Because a canvas stores premultiplied alpha, a fully transparent
pixel reads back from `getImageData` with zero colour channels as well
(hypothesis `hzero`), so the whole pixel is the zero word. -/
theorem empty_mask_blocks_submission (scale : Snap → Snap) (n : Nat)
    (s : EditorState) (svc : Except String String)
    (htrans : ∀ p ∈ s.canvas, p.a = 0)
    (hzero : ∀ p ∈ s.canvas, p.a = 0 → p.r = 0 ∧ p.g = 0 ∧ p.b = 0) :
    (handleGenerate scale n s svc).2 = false ∧
    ∃ m, (handleGenerate scale n s svc).1.error = some m := by
  unfold handleGenerate
  by_cases hp : promptBlank s.prompt
  · simp [hp]
  · have hall : s.canvas.all pixelZero = true := by
      rw [List.all_eq_true]
      intro p hpmem
      have h1 := htrans p hpmem
      have h2 := hzero p hpmem h1
      simp [pixelZero, h1, h2.1, h2.2.1, h2.2.2]
    simp [hp, hall]

/-- Concrete instance of C3's theorem: an all-transparent one-pixel canvas
blocks submission. -/
theorem empty_mask_blocks_submission_witness :
    (handleGenerate id 1
        { preClearState with canvas := blankSnap, prompt := "x" }
        (.ok "img")).2 = false ∧
    ∃ m, (handleGenerate id 1
        { preClearState with canvas := blankSnap, prompt := "x" }
        (.ok "img")).1.error = some m :=
  empty_mask_blocks_submission id 1 _ _ (by decide) (by decide)

/-- C7: when both validations pass and the image is loaded, a failed service
call leaves the original image, the history sequence and cursor, the prompt
text and the canvas untouched, and surfaces the failure message as the
inline error. -/
theorem failed_submission_preserves_state (scale : Snap → Snap) (n : Nat)
    (s : EditorState) (msg : String)
    (hp : promptBlank s.prompt = false)
    (hm : s.canvas.all pixelZero = false)
    (himg : s.image.isSome = true) :
    (handleGenerate scale n s (.error msg)).1.image = s.image ∧
    (handleGenerate scale n s (.error msg)).1.history = s.history ∧
    (handleGenerate scale n s (.error msg)).1.historyIndex
        = s.historyIndex ∧
    (handleGenerate scale n s (.error msg)).1.prompt = s.prompt ∧
    (handleGenerate scale n s (.error msg)).1.canvas = s.canvas ∧
    (handleGenerate scale n s (.error msg)).1.error = some msg ∧
    (handleGenerate scale n s (.error msg)).2 = true := by
  obtain ⟨img, himg'⟩ := Option.isSome_iff_exists.mp himg
  unfold handleGenerate
  simp [hp, hm, himg']

/-- Concrete instance of C7's theorem: a failing service call on a painted
one-stroke state preserves every piece of local editing state. -/
theorem failed_submission_preserves_state_witness :
    (handleGenerate id 1 { preClearState with prompt := "x" }
        (.error "boom")).1.image
      = ({ preClearState with prompt := "x" } : EditorState).image ∧
    (handleGenerate id 1 { preClearState with prompt := "x" }
        (.error "boom")).1.history
      = ({ preClearState with prompt := "x" } : EditorState).history ∧
    (handleGenerate id 1 { preClearState with prompt := "x" }
        (.error "boom")).1.historyIndex
      = ({ preClearState with prompt := "x" } : EditorState).historyIndex ∧
    (handleGenerate id 1 { preClearState with prompt := "x" }
        (.error "boom")).1.prompt
      = ({ preClearState with prompt := "x" } : EditorState).prompt ∧
    (handleGenerate id 1 { preClearState with prompt := "x" }
        (.error "boom")).1.canvas
      = ({ preClearState with prompt := "x" } : EditorState).canvas ∧
    (handleGenerate id 1 { preClearState with prompt := "x" }
        (.error "boom")).1.error = some "boom" ∧
    (handleGenerate id 1 { preClearState with prompt := "x" }
        (.error "boom")).2 = true :=
  failed_submission_preserves_state id 1 _ "boom" (by decide) (by decide)
    (by decide)

/-- C8: when the service responds without an image and safety ratings are
available, the error the generation call fails with contains the
safety-classification details as a substring of its message. -/
theorem safety_details_surfaced (key : String) (resp : GenResponse)
    (sf : String) (hni : resp.inlineImageData = none)
    (hsf : resp.safetyRatings = some sf) :
    ∃ pre post,
      editImageWithMask (some key) (.ok resp) = .error (pre ++ sf ++ post) := by
  refine ⟨"Failed to edit image: " ++ noImageMessage ++ " Safety feedback: ",
    "", ?_⟩
  simp only [editImageWithMask, hni, hsf]
  rw [String.append_empty]
  simp only [String.append_assoc]

/-- Concrete instance of C8's theorem: a blocked response with ratings text
surfaces that text inside the failure message. -/
theorem safety_details_surfaced_witness :
    ∃ pre post,
      editImageWithMask (some "k")
          (.ok { inlineImageData := none,
                 safetyRatings := some "[HARM_CATEGORY]" })
        = .error (pre ++ "[HARM_CATEGORY]" ++ post) :=
  safety_details_surfaced "k"
    { inlineImageData := none, safetyRatings := some "[HARM_CATEGORY]" }
    "[HARM_CATEGORY]" rfl rfl

lemma computeRenderRect_of_ne (nw nh cw ch : ℚ) (hnw0 : nw ≠ 0) :
    computeRenderRect nw nh cw ch =
      if cw / ch < nw / nh then some ⟨cw, cw / (nw / nh)⟩
      else some ⟨ch * (nw / nh), ch⟩ := by
  simp only [computeRenderRect, if_neg hnw0]

/-- C9: with a loaded image, `resizeCanvases` sets both the image canvas and
the drawing canvas to the same rectangle, which fits the container, has
exactly the image's native aspect ratio, is non-degenerate, and dominates
every rectangle of that aspect ratio fitting the container; with zero natural
width the operation changes nothing. -/
theorem resize_letterboxes_both_surfaces (nw nh cw ch : ℚ) (s : Surfaces)
    (hnh : 0 < nh) (hcw : 0 < cw) (hch : 0 < ch) :
    (nw = 0 → resizeCanvases nw nh cw ch s = s) ∧
    (0 < nw → ∃ r : Rect,
      resizeCanvases nw nh cw ch s = ⟨r, r⟩ ∧
      r.w ≤ cw ∧ r.h ≤ ch ∧ r.w * nh = r.h * nw ∧ 0 < r.w ∧ 0 < r.h ∧
      ∀ w h : ℚ, w ≤ cw → h ≤ ch → w * nh = h * nw → w ≤ r.w ∧ h ≤ r.h) := by
  constructor
  · intro h0
    simp [resizeCanvases, computeRenderRect, h0]
  · intro hnw
    have hnw0 : nw ≠ 0 := ne_of_gt hnw
    have hnh0 : nh ≠ 0 := ne_of_gt hnh
    have hratio : 0 < nw / nh := div_pos hnw hnh
    rw [resizeCanvases, computeRenderRect_of_ne nw nh cw ch hnw0]
    by_cases hc : cw / ch < nw / nh
    · rw [if_pos hc]
      refine ⟨⟨cw, cw / (nw / nh)⟩, rfl, le_refl cw, ?_, ?_, hcw, ?_, ?_⟩
      · rw [div_div_eq_mul_div, div_le_iff hnw]
        have := (div_lt_div_iff hch hnh).mp hc
        linarith
      · show cw * nh = cw / (nw / nh) * nw
        rw [div_div_eq_mul_div, div_mul_cancel₀ _ hnw0]
      · exact div_pos hcw hratio
      · intro w h hw hh hwh
        refine ⟨hw, ?_⟩
        rw [div_div_eq_mul_div, le_div_iff hnw, ← hwh]
        have : w * nh ≤ cw * nh :=
          mul_le_mul_of_nonneg_right hw (le_of_lt hnh)
        linarith
    · rw [if_neg hc]
      push_neg at hc
      refine ⟨⟨ch * (nw / nh), ch⟩, rfl, ?_, le_refl ch, ?_, ?_, hch, ?_⟩
      · rw [mul_div_assoc', div_le_iff hnh]
        have := (div_le_div_iff hnh hch).mp hc
        linarith
      · show ch * (nw / nh) * nh = ch * nw
        rw [mul_div_assoc', div_mul_cancel₀ _ hnh0]
      · exact mul_pos hch hratio
      · intro w h hw hh hwh
        refine ⟨?_, hh⟩
        rw [mul_div_assoc', le_div_iff hnh, hwh]
        have : h * nw ≤ ch * nw :=
          mul_le_mul_of_nonneg_right hh (le_of_lt hnw)
        linarith

/-- Concrete instance of C9's theorem: a 2:1 image in a square container is
pillarboxed to the full container width. -/
theorem resize_letterboxes_both_surfaces_witness :
    ((2 : ℚ) = 0 →
      resizeCanvases 2 1 1 1 ⟨⟨0, 0⟩, ⟨0, 0⟩⟩ = ⟨⟨0, 0⟩, ⟨0, 0⟩⟩) ∧
    ((0 : ℚ) < 2 → ∃ r : Rect,
      resizeCanvases 2 1 1 1 ⟨⟨0, 0⟩, ⟨0, 0⟩⟩ = ⟨r, r⟩ ∧
      r.w ≤ 1 ∧ r.h ≤ 1 ∧ r.w * 1 = r.h * 2 ∧ 0 < r.w ∧ 0 < r.h ∧
      ∀ w h : ℚ, w ≤ 1 → h ≤ 1 → w * 1 = h * 2 → w ≤ r.w ∧ h ≤ r.h) :=
  resize_letterboxes_both_surfaces 2 1 1 1 ⟨⟨0, 0⟩, ⟨0, 0⟩⟩
    (by norm_num) (by norm_num) (by norm_num)
